import Mathlib

/-!
# Verification of the sunrise recovery daemon (`src/main.go`)

A shallow embedding of the pure decision logic of the sunrise daemon:
the Sunshine log timestamp parser (`parseSunshineTimestamp`), the
occurrence tracker inside `isMonitorMissing` (rotation detection,
line scan, dedup decision), and the command-string splitting used by
`wakeMonitor` / `stopSunshine` / `startSunshine`.

Modelling conventions:
* Go strings and log lines are `List Char` (byte/rune distinction is
  irrelevant here: every character the parser inspects is ASCII, and
  substring containment of valid UTF-8 text agrees between bytes and
  runes).
* `time.Time` is modelled by an `Int` key that is injective and
  order-isomorphic to chronological order of the parsed local
  wall-clock timestamps, with `time.Local` modelled as a fixed-offset
  zone (taken as UTC).  The key of the Go zero time instant
  (January 1, year 1, 00:00:00 UTC) is `0`, so `time.Time.IsZero`
  becomes `= 0` and `time.Time.After` becomes `>` on keys.
* File sizes (`int64`) are `Int`.
* The tracker's package-level mutable state (`lastLogSize`,
  `lastMonitorMissingTime`) is an explicit `TrackingState` threaded
  through the functions.
* I/O steps are explicit: the possible outcomes of `os.Stat`,
  `os.Open` and the `bufio.Scanner` loop in one call of
  `isMonitorMissing` are an input of type `ReadOutcome`.
-/

/-! ## Timestamp parser (main.go lines 160-176, `parseSunshineTimestamp`) -/

/-- The two error values `parseSunshineTimestamp` can produce:
`missingBrackets` is the single `fmt.Errorf("sunshine log line missing
timestamp brackets")` value used both when the line does not start with
`[` and when it has no `]`; `badTimeFormat` stands for the
`*time.ParseError` returned by `time.ParseInLocation` when the bracketed
portion does not match the layout `2006-01-02 15:04:05.000`. -/
inductive ParseErr where
  | missingBrackets : ParseErr
  | badTimeFormat : ParseErr
deriving DecidableEq, Repr

/-- Numeric value of an ASCII digit character. -/
def digitVal (ch : Char) : Nat := ch.toNat - 48

/-- Go `time.isLeap`: proleptic Gregorian leap-year rule. -/
def isLeapYear (y : Nat) : Bool := y % 4 == 0 && (y % 100 != 0 || y % 400 == 0)

/-- Go `time.daysIn(m, year)`: number of days of month `mo` in year `y`. -/
def daysIn (y mo : Nat) : Nat :=
  if mo = 2 then (if isLeapYear y then 29 else 28)
  else if mo = 4 ∨ mo = 6 ∨ mo = 9 ∨ mo = 11 then 30
  else 31

/-- Positional encoding of a wall-clock timestamp; strictly monotone in
lexicographic field order as long as `1 ≤ mo ≤ 12`, `1 ≤ d ≤ 31`,
`h < 24`, `mi < 60`, `se < 60`, `ms < 1000`, which the parser checks. -/
def rawKey (y mo d h mi se ms : Nat) : Nat :=
  (((((y * 12 + (mo - 1)) * 31 + (d - 1)) * 24 + h) * 60 + mi) * 60 + se) * 1000 + ms

/-- Key of the Go zero time instant, January 1 of year 1, 00:00:00.000. -/
def zeroKeyOffset : Nat := rawKey 1 1 1 0 0 0 0

/-- The `Int` key modelling the `time.Time` produced for a given set of
calendar fields; `timeKey 1 1 1 0 0 0 0 = 0` is the Go zero time. -/
def timeKey (y mo d h mi se ms : Nat) : Int :=
  (rawKey y mo d h mi se ms : Int) - (zeroKeyOffset : Int)

/-- Go `getnum(s, true)` (fixed-width): exactly two leading digits, or
failure.  Used for the zero-padded layout tokens `01`, `02`, `04`, `05`
(month, day, minute, second). -/
def getnum2 (s : List Char) : Option (Nat × List Char) :=
  match s with
  | c1 :: c2 :: rest =>
    if c1.isDigit && c2.isDigit then
      some (digitVal c1 * 10 + digitVal c2, rest)
    else none
  | _ => none

/-- Go `getnum(s, false)` (non-fixed): one or two leading digits.  Used
for the layout token `15` (hour), which therefore also accepts
single-digit hours such as `9`. -/
def getnum1or2 (s : List Char) : Option (Nat × List Char) :=
  match s with
  | [] => none
  | c1 :: rest =>
    if c1.isDigit then
      match rest with
      | c2 :: rest2 =>
        if c2.isDigit then some (digitVal c1 * 10 + digitVal c2, rest2)
        else some (digitVal c1, rest)
      | [] => some (digitVal c1, [])
    else none

/-- Matching of a one-character literal layout separator: the input must
carry exactly that character. -/
def expectChar (c : Char) (s : List Char) : Option (List Char) :=
  match s with
  | c1 :: rest => if c1 = c then some rest else none
  | [] => none

/-- Go `stdLongYear` (layout token `2006`): exactly four characters are
consumed; the first must be a digit and `atoi` on the 4-char slice
succeeds only when all four are digits.  The year is not range-checked
(`0000` is accepted). -/
def getYear4 (s : List Char) : Option (Nat × List Char) :=
  match s with
  | y1 :: y2 :: y3 :: y4 :: rest =>
    if y1.isDigit && y2.isDigit && y3.isDigit && y4.isDigit then
      some (((digitVal y1 * 10 + digitVal y2) * 10 + digitVal y3) * 10 + digitVal y4, rest)
    else none
  | _ => none

/-- Go `parseNanoseconds(value, 4)` for the `.000` layout chunk,
returning the fraction in milliseconds: the separator may be `.` or `,`
(`commaOrPeriod`), and the next three characters go through `atoi`,
which also accepts a leading `+` before two digits (a `-` would make
the count negative, which `parseNanoseconds` rejects); so both `mmm`
and `+mm` forms are accepted. -/
def getFrac3 (s : List Char) : Option (Nat × List Char) :=
  match s with
  | sep :: f1 :: f2 :: f3 :: rest =>
    if sep = '.' ∨ sep = ',' then
      if f1.isDigit && f2.isDigit && f3.isDigit then
        some ((digitVal f1 * 10 + digitVal f2) * 10 + digitVal f3, rest)
      else if (f1 = '+') && f2.isDigit && f3.isDigit then
        some (digitVal f2 * 10 + digitVal f3, rest)
      else none
    else none
  | _ => none

/-- The date chunks of the layout: four-digit year (`2006`), literal
`-`, two-digit month (`01`), literal `-`, two-digit day (`02`);
returns the fields and the unconsumed remainder. -/
def parseDate (s : List Char) : Option (Nat × Nat × Nat × List Char) :=
  match getYear4 s with
  | some (y, s1) =>
    match expectChar '-' s1 with
    | some s2 =>
      match getnum2 s2 with
      | some (mo, s3) =>
        match expectChar '-' s3 with
        | some s4 =>
          match getnum2 s4 with
          | some (d, s5) => some (y, mo, d, s5)
          | none => none
        | none => none
      | none => none
    | none => none
  | none => none

/-- The clock chunks of the layout: a one- or two-digit hour (`15`,
read with `getnum(value, false)`) range-checked to 0-23 inline, literal
`:`, two-digit minute (`04`) up to 59, literal `:`, two-digit second
(`05`) up to 59, then the fractional chunk `.000` via
`parseNanoseconds` (`getFrac3`); the range checks happen at each chunk
exactly as in Go's `Parse`. -/
def parseClock (s : List Char) : Option (Nat × Nat × Nat × Nat × List Char) :=
  match getnum1or2 s with
  | some (h, s1) =>
    if 23 < h then none else
    match expectChar ':' s1 with
    | some s2 =>
      match getnum2 s2 with
      | some (mi, s3) =>
        if 59 < mi then none else
        match expectChar ':' s3 with
        | some s4 =>
          match getnum2 s4 with
          | some (se, s5) =>
            if 59 < se then none else
            match getFrac3 s5 with
            | some (ms, s6) => some (h, mi, se, ms, s6)
            | none => none
          | none => none
        | none => none
      | none => none
    | none => none
  | none => none

/-- Go `time.ParseInLocation("2006-01-02 15:04:05.000", s, time.Local)`,
restricted to the data the daemon uses: `some key` on success, `none` on
any parse error.  The layout is consumed chunk by chunk as Go's `Parse`
does: the date chunks (`parseDate`), the literal space, the clock
chunks (`parseClock`); any trailing text is an error ("extra text"),
and finally month (1-12) and day (1-`daysIn`) are range-checked — the
year is not (`0000` is accepted).  Note the laxities Go's parser has
over the literal fixed-width pattern: the hour may be a single digit,
the fractional separator may be `,` as well as `.`, and the fraction
accepts a leading `+`. -/
def parseTimePortion (s : List Char) : Option Int :=
  match parseDate s with
  | some (y, mo, d, s5) =>
    match expectChar ' ' s5 with
    | some s6 =>
      match parseClock s6 with
      | some (h, mi, se, ms, s12) =>
        if s12 = [] then
          if 1 ≤ mo ∧ mo ≤ 12 then
            if 1 ≤ d ∧ d ≤ daysIn y mo then some (timeKey y mo d h mi se ms)
            else none
          else none
        else none
      | none => none
    | none => none
  | none => none

/-- Split a character list around its first `]`: `some (before, after)`
when a `]` occurs, `none` otherwise.  This models
`endIdx := strings.Index(line, "]")` together with the slicings
`line[1:endIdx]` used by `parseSunshineTimestamp` (for a line starting
with `[`, the first `]` of the line is the first `]` of its tail). -/
def breakAtClose : List Char → Option (List Char × List Char)
  | [] => none
  | ch :: rest =>
    if ch = ']' then some ([], rest)
    else (breakAtClose rest).map (fun ba => (ch :: ba.1, ba.2))

/-- main.go lines 162-176: `parseSunshineTimestamp(line)`.  Fails with the
single `missingBrackets` error when the line does not start with `[` or
contains no `]` (Go: `if !strings.HasPrefix(line, "[") || endIdx == -1`),
and with `badTimeFormat` when `time.ParseInLocation` rejects the
bracketed portion; otherwise returns the timestamp key. -/
def parseSunshineTimestamp (line : List Char) : Except ParseErr Int :=
  match line with
  | '[' :: rest =>
    match breakAtClose rest with
    | some ba =>
      match parseTimePortion ba.1 with
      | some t => .ok t
      | none => .error .badTimeFormat
    | none => .error .missingBrackets
  | _ => .error .missingBrackets

/-! ## Configuration and tracker state (main.go lines 16-36) -/

/-- main.go lines 27-36: the `config` struct (string options as char
lists, durations as integers). -/
structure Config where
  sunriseCheckSeconds : Int
  sunshineLogPath : List Char
  monitorIsOffLogLine : List Char
  wakeMonitorSleepSeconds : Int
  stopSunshineCommand : List Char
  startSunshineCommand : List Char
  wakeMonitorCommand : List Char
  enableSunshineRestart : Bool
deriving DecidableEq, Repr

/-- main.go lines 16-23: the package-level mutable tracking state
`lastLogSize` and `lastMonitorMissingTime` (the latter as a time key,
`0` being the Go zero time used as the "nothing handled" sentinel). -/
structure TrackingState where
  lastLogSize : Int
  lastMonitorMissingTime : Int
deriving DecidableEq, Repr

/-- main.go lines 156-158: `resetMonitorTracking()` sets
`lastMonitorMissingTime = time.Time{}`. -/
def resetMonitorTracking (st : TrackingState) : TrackingState :=
  { st with lastMonitorMissingTime := 0 }

/-! ## Occurrence tracker (main.go lines 78-138, `isMonitorMissing`) -/

/-- Go `strings.Contains(hay, pat)`: `pat` occurs as a contiguous
subsequence of `hay` (always true for the empty pattern). -/
def hasSub (hay pat : List Char) : Bool :=
  pat.isPrefixOf hay ||
    match hay with
    | [] => false
    | _ :: t => hasSub t pat

/-- Body of the scanner loop, main.go lines 103-118: lines not containing
the configured substring are skipped, matching lines whose timestamp
fails to parse are logged and skipped, and a successfully parsed
timestamp replaces the accumulator when it is strictly later
(`entryTime.After(latestOccurrence)`). -/
def scanStep (trigger : List Char) (acc : Int) (line : List Char) : Int :=
  if hasSub line trigger then
    match parseSunshineTimestamp line with
    | .ok entryTime => if acc < entryTime then entryTime else acc
    | .error _ => acc
  else acc

/-- main.go lines 99-118: the whole scanner loop; `latestOccurrence`
starts as the zero time (`var latestOccurrence time.Time`, key `0`). -/
def scanLatest (trigger : List Char) (lines : List (List Char)) : Int :=
  lines.foldl (scanStep trigger) 0

/-- main.go lines 85-91: the rotation check (`if logInfo.Size() <
lastLogSize { resetMonitorTracking() }`) followed by the unconditional
`lastLogSize = logInfo.Size()`. -/
def afterSizeCheck (st : TrackingState) (size : Int) : TrackingState :=
  let st1 := if size < st.lastLogSize then resetMonitorTracking st else st
  { st1 with lastLogSize := size }

/-- main.go lines 124-137: the final decision.  `latestOccurrence.IsZero()`
resets the tracking state and reports no trigger; otherwise a new
trigger is reported exactly when `lastMonitorMissingTime.IsZero() ||
latestOccurrence.After(lastMonitorMissingTime)`, recording the new
timestamp; otherwise the occurrence was already handled. -/
def compareStep (st : TrackingState) (latestOccurrence : Int) : Bool × TrackingState :=
  if latestOccurrence = 0 then
    (false, resetMonitorTracking st)
  else if st.lastMonitorMissingTime = 0 ∨ st.lastMonitorMissingTime < latestOccurrence then
    (true, { st with lastMonitorMissingTime := latestOccurrence })
  else
    (false, st)

/-- The pure core of `isMonitorMissing` for a successful read: rotation
check and size update (lines 85-91), scanner loop (lines 99-118),
decision (lines 124-137). -/
def trackScan (cfg : Config) (st : TrackingState) (size : Int)
    (lines : List (List Char)) : Bool × TrackingState :=
  compareStep (afterSizeCheck st size) (scanLatest cfg.monitorIsOffLogLine lines)

/-- The possible outcomes of the I/O steps inside one call of
`isMonitorMissing`: `os.Stat` fails (line 80); `os.Open` fails
(line 93) after the size check already ran; the `bufio.Scanner` reports
a read error (`scanner.Err()`, line 120) after the size check already
ran; or everything succeeds, yielding the observed size and lines. -/
inductive ReadOutcome where
  | statErr : ReadOutcome
  | openErr (size : Int) : ReadOutcome
  | scanErr (size : Int) (lines : List (List Char)) : ReadOutcome
  | ok (size : Int) (lines : List (List Char)) : ReadOutcome

/-- main.go lines 78-138: `isMonitorMissing()` with the I/O outcome made
explicit.  A `Stat` failure returns before any state is touched; `Open`
and scanner failures return after the rotation check and the
`lastLogSize` update already ran; on success the tracker decision runs. -/
def isMonitorMissing (cfg : Config) (st : TrackingState) (r : ReadOutcome) :
    Except Unit Bool × TrackingState :=
  match r with
  | .statErr => (.error (), st)
  | .openErr size => (.error (), afterSizeCheck st size)
  | .scanErr size _lines => (.error (), afterSizeCheck st size)
  | .ok size lines =>
    let res := trackScan cfg st size lines
    (.ok res.1, res.2)

/-! ## Multi-tick runs -/

/-- One poll's view of the log file: the size reported by `os.Stat` and
the full ordered sequence of lines read by the scanner. -/
structure LogObservation where
  size : Int
  lines : List (List Char)
deriving DecidableEq, Repr

/-- Append-only growth between two successive observations: the earlier
line sequence is a prefix of the later one and the size did not
decrease. -/
def Grows (a b : LogObservation) : Prop :=
  a.lines <+: b.lines ∧ a.size ≤ b.size

instance : DecidableRel Grows := fun a b =>
  inferInstanceAs (Decidable (a.lines <+: b.lines ∧ a.size ≤ b.size))

/-- Run the tracker over a sequence of successful observations,
returning the final state (each tick is one `trackScan`). -/
def runTicks (cfg : Config) (st : TrackingState) (obs : List LogObservation) :
    TrackingState :=
  obs.foldl (fun s o => (trackScan cfg s o.size o.lines).2) st

/-! ## Spec-side views of the scan -/

/-- The contribution of one line to the scan: the parsed timestamp when
the line contains the trigger substring and its timestamp parses,
nothing otherwise.  Direct reading of the loop body, lines 103-113. -/
def matchParse (trigger line : List Char) : Option Int :=
  if hasSub line trigger then (parseSunshineTimestamp line).toOption else none

/-- All successfully parsed timestamps of matching lines, in order. -/
def parsedMatching (trigger : List Char) (lines : List (List Char)) : List Int :=
  lines.filterMap (matchParse trigger)

/-- The spec's `latestOccurrence` (§4.2 step 3): the maximum successfully
parsed timestamp across all matching lines, absent when no matching
line parsed. -/
def specLatestOccurrence (trigger : List Char) (lines : List (List Char)) : Option Int :=
  (parsedMatching trigger lines).max?

/-- The scanner loop with the substring filter removed: every line of
the file is a candidate (used to state what an empty trigger substring
reduces the scan to). -/
def scanLatestAllLines (lines : List (List Char)) : Int :=
  lines.foldl (fun acc line =>
    match parseSunshineTimestamp line with
    | .ok entryTime => if acc < entryTime then entryTime else acc
    | .error _ => acc) 0

/-! ## Command construction (main.go lines 142-146, 200-204, 212-216) -/

/-- Go `strings.Split(s, " ")` for the single-character separator: split
around every space; `Split("", " ") = [""]`. -/
def commandAndArgs (s : List Char) : List (List Char) :=
  List.splitOn ' ' s

/-- main.go lines 143-144 (`wakeMonitor`): the program (element `0` of
the split) and argument list handed to `exec.Command`; `none` would
mean the index-0 access panics. -/
def wakeMonitor (cfg : Config) : Option (List Char × List (List Char)) :=
  match commandAndArgs cfg.wakeMonitorCommand with
  | [] => none
  | prog :: args => some (prog, args)

/-- main.go lines 201-202 (`stopSunshine`): program and arguments of the
stop command. -/
def stopSunshine (cfg : Config) : Option (List Char × List (List Char)) :=
  match commandAndArgs cfg.stopSunshineCommand with
  | [] => none
  | prog :: args => some (prog, args)

/-- main.go lines 213-214 (`startSunshine`): program and arguments of
the start command. -/
def startSunshine (cfg : Config) : Option (List Char × List (List Char)) :=
  match commandAndArgs cfg.startSunshineCommand with
  | [] => none
  | prog :: args => some (prog, args)

/-! ## Decidable equality for `Except` results -/

instance {ε α : Type} [DecidableEq ε] [DecidableEq α] : DecidableEq (Except ε α) := fun x y =>
  match x, y with
  | .ok a, .ok b => decidable_of_iff (a = b) (by simp)
  | .ok _, .error _ => isFalse (by simp)
  | .error _, .ok _ => isFalse (by simp)
  | .error e, .error f => decidable_of_iff (e = f) (by simp)

/-! ## Basic lemmas about the scan -/

theorem hasSub_nil (hay : List Char) : hasSub hay [] = true := by
  cases hay <;> simp [hasSub, List.isPrefixOf]

theorem ite_lt_eq_max (a b : Int) : (if a < b then b else a) = max a b := by
  rcases lt_or_le a b with h | h
  · rw [if_pos h, max_eq_right h.le]
  · rw [if_neg (not_lt.2 h), max_eq_left h]

theorem scanStep_eq_matchParse (trigger : List Char) (acc : Int) (line : List Char) :
    scanStep trigger acc line =
      match matchParse trigger line with
      | some t => max acc t
      | none => acc := by
  unfold scanStep matchParse
  cases hs : hasSub line trigger
  · simp
  · simp only [if_pos rfl]
    cases hp : parseSunshineTimestamp line <;>
      simp [Except.toOption, ite_lt_eq_max]

theorem foldl_scanStep (trigger : List Char) :
    ∀ (l : List (List Char)) (a : Int),
      l.foldl (scanStep trigger) a = (parsedMatching trigger l).foldl max a := by
  intro l
  induction l with
  | nil => intro a; simp [parsedMatching]
  | cons x xs ih =>
    intro a
    simp only [List.foldl_cons, parsedMatching, List.filterMap_cons]
    rw [scanStep_eq_matchParse]
    cases h : matchParse trigger x <;> simp only [h] <;> exact ih _

theorem le_foldl_max : ∀ (l : List Int) (a : Int), a ≤ l.foldl max a := by
  intro l
  induction l with
  | nil => intro a; exact le_refl a
  | cons x xs ih => intro a; exact le_trans (le_max_left a x) (ih _)

theorem le_foldl_scanStep (trigger : List Char) (l : List (List Char)) (a : Int) :
    a ≤ l.foldl (scanStep trigger) a := by
  rw [foldl_scanStep]; exact le_foldl_max _ _

theorem scanLatest_nonneg (trigger : List Char) (lines : List (List Char)) :
    0 ≤ scanLatest trigger lines :=
  le_foldl_scanStep trigger lines 0

theorem scanLatest_prefix_le (trigger : List Char) {l₁ l₂ : List (List Char)}
    (h : l₁ <+: l₂) : scanLatest trigger l₁ ≤ scanLatest trigger l₂ := by
  obtain ⟨r, rfl⟩ := h
  unfold scanLatest
  rw [List.foldl_append]
  exact le_foldl_scanStep trigger r _

/-! ## Basic lemmas about the decision steps -/

theorem compareStep_fst (st : TrackingState) (v : Int) :
    (compareStep st v).1 = true ↔
      v ≠ 0 ∧ (st.lastMonitorMissingTime = 0 ∨ st.lastMonitorMissingTime < v) := by
  unfold compareStep
  by_cases h1 : v = 0
  · simp [h1]
  · by_cases h2 : st.lastMonitorMissingTime = 0 ∨ st.lastMonitorMissingTime < v <;>
      simp [h1, h2]

theorem compareStep_snd_size (st : TrackingState) (v : Int) :
    (compareStep st v).2.lastLogSize = st.lastLogSize := by
  unfold compareStep resetMonitorTracking
  split_ifs <;> rfl

theorem compareStep_true_state (st : TrackingState) (v : Int)
    (h : (compareStep st v).1 = true) :
    (compareStep st v).2 = { st with lastMonitorMissingTime := v } := by
  obtain ⟨h1, h2⟩ := (compareStep_fst st v).1 h
  unfold compareStep
  rw [if_neg h1, if_pos h2]

theorem compareStep_already (st : TrackingState) (v : Int) (h1 : v ≠ 0)
    (h2 : ¬(st.lastMonitorMissingTime = 0 ∨ st.lastMonitorMissingTime < v)) :
    compareStep st v = (false, st) := by
  unfold compareStep
  rw [if_neg h1, if_neg h2]

theorem compareStep_last_ge (st : TrackingState) (v w : Int) (hw : 0 < w)
    (hv : w ≤ v) (hst : w ≤ st.lastMonitorMissingTime) :
    w ≤ (compareStep st v).2.lastMonitorMissingTime := by
  unfold compareStep
  split_ifs with h1 h2
  · omega
  · exact hv
  · exact hst

theorem compareStep_post (st : TrackingState) (v : Int) (h1 : v ≠ 0) :
    (compareStep st v).2.lastMonitorMissingTime ≠ 0 ∧
      v ≤ (compareStep st v).2.lastMonitorMissingTime := by
  unfold compareStep
  rw [if_neg h1]
  split_ifs with h2
  · exact ⟨h1, le_refl v⟩
  · push_neg at h2
    exact ⟨h2.1, h2.2⟩

theorem afterSizeCheck_size (st : TrackingState) (size : Int) :
    (afterSizeCheck st size).lastLogSize = size := rfl

theorem afterSizeCheck_last_of_le (st : TrackingState) (size : Int)
    (h : st.lastLogSize ≤ size) :
    (afterSizeCheck st size).lastMonitorMissingTime = st.lastMonitorMissingTime := by
  unfold afterSizeCheck
  rw [if_neg (not_lt.2 h)]

theorem afterSizeCheck_last_of_lt (st : TrackingState) (size : Int)
    (h : size < st.lastLogSize) :
    (afterSizeCheck st size).lastMonitorMissingTime = 0 := by
  unfold afterSizeCheck resetMonitorTracking
  rw [if_pos h]

theorem trackScan_size (cfg : Config) (st : TrackingState) (size : Int)
    (lines : List (List Char)) :
    (trackScan cfg st size lines).2.lastLogSize = size := by
  unfold trackScan
  rw [compareStep_snd_size, afterSizeCheck_size]

/-! ## The append-only run invariant behind the dedup property -/

theorem runTicks_nil (cfg : Config) (st : TrackingState) : runTicks cfg st [] = st := rfl

theorem runTicks_cons (cfg : Config) (st : TrackingState) (o : LogObservation)
    (obs : List LogObservation) :
    runTicks cfg st (o :: obs) = runTicks cfg (trackScan cfg st o.size o.lines).2 obs := rfl

/-- Along an append-only run that starts with an observation whose
maximal scanned timestamp is at least `v > 0`, and from a state that has
already handled a timestamp of at least `v` and recorded the starting
observation's size, the handled timestamp never drops below `v`, the
recorded size never exceeds the next observation's size, and the scanned
maximum stays at least `v`. -/
theorem keep (cfg : Config) (v : Int) (hv : 0 < v) :
    ∀ (mid : List LogObservation) (prev : LogObservation) (s : TrackingState)
      (o2 : LogObservation),
      List.Chain' Grows (prev :: (mid ++ [o2])) →
      v ≤ scanLatest cfg.monitorIsOffLogLine prev.lines →
      s.lastLogSize = prev.size →
      v ≤ s.lastMonitorMissingTime →
      v ≤ (runTicks cfg s mid).lastMonitorMissingTime ∧
        (runTicks cfg s mid).lastLogSize ≤ o2.size ∧
        v ≤ scanLatest cfg.monitorIsOffLogLine o2.lines := by
  intro mid
  induction mid with
  | nil =>
    intro prev s o2 hch hvprev hsize hlast
    have hg : Grows prev o2 := (List.chain'_cons.1 hch).1
    refine ⟨hlast, ?_, ?_⟩
    · rw [runTicks_nil, hsize]; exact hg.2
    · exact le_trans hvprev (scanLatest_prefix_le _ hg.1)
  | cons m mid ih =>
    intro prev s o2 hch hvprev hsize hlast
    have hg : Grows prev m := (List.chain'_cons.1 hch).1
    have hch' : List.Chain' Grows (m :: (mid ++ [o2])) := (List.chain'_cons.1 hch).2
    have hvm : v ≤ scanLatest cfg.monitorIsOffLogLine m.lines :=
      le_trans hvprev (scanLatest_prefix_le _ hg.1)
    have hnorot : s.lastLogSize ≤ m.size := by rw [hsize]; exact hg.2
    have h1 : (trackScan cfg s m.size m.lines).2.lastLogSize = m.size :=
      trackScan_size cfg s m.size m.lines
    have h2 : v ≤ (trackScan cfg s m.size m.lines).2.lastMonitorMissingTime := by
      unfold trackScan
      refine compareStep_last_ge _ _ _ hv hvm ?_
      rw [afterSizeCheck_last_of_le _ _ hnorot]
      exact hlast
    rw [runTicks_cons]
    exact ih m (trackScan cfg s m.size m.lines).2 o2 hch' hvm h1 h2

theorem trackScan_fst_iff (cfg : Config) (st : TrackingState) (size : Int)
    (lines : List (List Char)) :
    (trackScan cfg st size lines).1 = true ↔
      scanLatest cfg.monitorIsOffLogLine lines ≠ 0 ∧
      ((afterSizeCheck st size).lastMonitorMissingTime = 0 ∨
        (afterSizeCheck st size).lastMonitorMissingTime <
          scanLatest cfg.monitorIsOffLogLine lines) :=
  compareStep_fst _ _

theorem trackScan_true_last (cfg : Config) (st : TrackingState) (size : Int)
    (lines : List (List Char)) (h : (trackScan cfg st size lines).1 = true) :
    (trackScan cfg st size lines).2.lastMonitorMissingTime =
      scanLatest cfg.monitorIsOffLogLine lines := by
  unfold trackScan at h ⊢
  rw [compareStep_true_state _ _ h]

/-! ## Sample data used by witnesses and counterexamples -/

/-- A sample trigger substring. -/
def trigDD : List Char := "dd".toList

/-- A sample configuration whose trigger substring is `trigDD`. -/
def cfgSample : Config := ⟨0, [], trigDD, 0, [], [], [], false⟩

/-- A matching log line with timestamp 2024-01-01 10:00:00.000. -/
def lineT1 : List Char := "[2024-01-01 10:00:00.000] dd".toList

/-- A matching log line with the strictly later timestamp
2024-01-02 11:30:00.500. -/
def lineT2 : List Char := "[2024-01-02 11:30:00.500] dd".toList

/-- First sample observation: the log holds only `lineT1`. -/
def obsA : LogObservation := ⟨28, [lineT1]⟩

/-- Second sample observation: `lineT2` was appended after `lineT1`. -/
def obsB : LogObservation := ⟨57, [lineT1, lineT2]⟩

/-! ## C1: at most one "new trigger" report per maximal timestamp -/

/-- C1 (confirmed).  For a fixed, append-only sequence of observations
(no rotation: each observation's lines extend the previous one's and
sizes never decrease), across any number of successive tracker calls,
"new trigger detected" is reported at most once per distinct maximal
parsed timestamp: if the calls at two positions of the run both report
`true`, their maximal scanned timestamps differ — re-scanning content
with the same maximum can never fire twice. -/
theorem new_trigger_at_most_once_per_timestamp
    (cfg : Config) (st0 : TrackingState) (pre mid post : List LogObservation)
    (o1 o2 : LogObservation)
    (hgrow : List.Chain' Grows (pre ++ o1 :: (mid ++ o2 :: post)))
    (h1 : (trackScan cfg (runTicks cfg st0 pre) o1.size o1.lines).1 = true)
    (h2 : (trackScan cfg
        (runTicks cfg (trackScan cfg (runTicks cfg st0 pre) o1.size o1.lines).2 mid)
        o2.size o2.lines).1 = true) :
    scanLatest cfg.monitorIsOffLogLine o1.lines ≠
      scanLatest cfg.monitorIsOffLogLine o2.lines := by
  intro heq
  obtain ⟨hvne, _⟩ := (trackScan_fst_iff _ _ _ _).1 h1
  have hvpos : 0 < scanLatest cfg.monitorIsOffLogLine o1.lines :=
    lt_of_le_of_ne (scanLatest_nonneg _ _) (Ne.symm hvne)
  have hlast1 := trackScan_true_last _ _ _ _ h1
  have hsize1 := trackScan_size cfg (runTicks cfg st0 pre) o1.size o1.lines
  have hsuf : (o1 :: (mid ++ o2 :: post)) <:+ (pre ++ o1 :: (mid ++ o2 :: post)) :=
    ⟨pre, rfl⟩
  have hch1 := hgrow.suffix hsuf
  have hpre2 : (o1 :: (mid ++ [o2])) <+: (o1 :: (mid ++ o2 :: post)) :=
    ⟨post, by simp⟩
  have hch2 := hch1.prefix hpre2
  obtain ⟨hA, hB, hC⟩ :=
    keep cfg _ hvpos mid o1 (trackScan cfg (runTicks cfg st0 pre) o1.size o1.lines).2 o2
      hch2 (le_refl _) hsize1 (le_of_eq hlast1.symm)
  obtain ⟨hv2ne, hcond⟩ := (trackScan_fst_iff _ _ _ _).1 h2
  rw [afterSizeCheck_last_of_le _ _ hB] at hcond
  rcases hcond with h0 | hlt
  · omega
  · rw [← heq] at hlt
    omega

/-- Witness for C1 at a concrete two-tick run: the first scan fires for
the maximum of `lineT1`, the second fires for the maximum of
`lineT1, lineT2`, and those maxima are distinct. -/
theorem new_trigger_at_most_once_per_timestamp_witness :
    List.Chain' Grows ([] ++ obsA :: ([] ++ obsB :: [])) ∧
    (trackScan cfgSample (runTicks cfgSample ⟨0, 0⟩ []) obsA.size obsA.lines).1 = true ∧
    (trackScan cfgSample
        (runTicks cfgSample
          (trackScan cfgSample (runTicks cfgSample ⟨0, 0⟩ []) obsA.size obsA.lines).2 [])
        obsB.size obsB.lines).1 = true ∧
    scanLatest cfgSample.monitorIsOffLogLine obsA.lines ≠
      scanLatest cfgSample.monitorIsOffLogLine obsB.lines := by
  have hch : List.Chain' Grows ([] ++ obsA :: ([] ++ obsB :: [])) :=
    List.chain'_cons.2 ⟨⟨⟨[lineT2], rfl⟩, by decide⟩, List.chain'_singleton _⟩
  refine ⟨hch, by decide, by decide, ?_⟩
  exact new_trigger_at_most_once_per_timestamp cfgSample ⟨0, 0⟩ [] [] [] obsA obsB
    hch (by decide) (by decide)

/-! ## C8: scanning unchanged content twice yields no action -/

/-- C8 (confirmed).  Whatever the first call reported and whatever the
starting state was, calling the tracker again with identical content
and identical size reports no action. -/
theorem second_identical_scan_no_action (cfg : Config) (st : TrackingState)
    (size : Int) (lines : List (List Char)) :
    (trackScan cfg (trackScan cfg st size lines).2 size lines).1 = false := by
  have hsize : (trackScan cfg st size lines).2.lastLogSize = size :=
    trackScan_size cfg st size lines
  rw [← Bool.not_eq_true]
  intro htrue
  obtain ⟨hvne, hcond⟩ := (trackScan_fst_iff _ _ _ _).1 htrue
  rw [afterSizeCheck_last_of_le _ _ (le_of_eq hsize)] at hcond
  have heq1 : trackScan cfg st size lines =
      compareStep (afterSizeCheck st size) (scanLatest cfg.monitorIsOffLogLine lines) := rfl
  have hpost := compareStep_post (afterSizeCheck st size)
    (scanLatest cfg.monitorIsOffLogLine lines) hvne
  rw [← heq1] at hpost
  rcases hcond with h0 | hlt
  · exact hpost.1 h0
  · omega

/-! ## C2: rotation resets the handled timestamp, size always updated -/

/-- C2 (corrected).  `lastFileSize` is unconditionally updated to the
observed size, and after a size decrease (rotation) the scan fires for
its maximal parsed timestamp — however old — and records it, *provided*
that maximum is strictly after the Go zero time (key `> 0`); a maximal
timestamp at or before the zero instant is absorbed by the zero-time
sentinel and reported as "no trigger" instead (see the counterexample). -/
theorem rotation_refires_and_size_updates (cfg : Config) (st : TrackingState)
    (size : Int) (lines : List (List Char)) :
    (trackScan cfg st size lines).2.lastLogSize = size ∧
    (size < st.lastLogSize → 0 < scanLatest cfg.monitorIsOffLogLine lines →
      (trackScan cfg st size lines).1 = true ∧
      (trackScan cfg st size lines).2.lastMonitorMissingTime =
        scanLatest cfg.monitorIsOffLogLine lines) := by
  refine ⟨trackScan_size _ _ _ _, fun hrot hv => ?_⟩
  have hfire : (trackScan cfg st size lines).1 = true := by
    rw [trackScan_fst_iff]
    exact ⟨by omega, Or.inl (afterSizeCheck_last_of_lt _ _ hrot)⟩
  exact ⟨hfire, trackScan_true_last _ _ _ _ hfire⟩

/-- Witness for C2: after a rotation (size 100 to 28), a timestamp far
earlier than the previously handled one re-fires and is recorded. -/
theorem rotation_refires_and_size_updates_witness :
    (28 : Int) < 100 ∧
    0 < scanLatest cfgSample.monitorIsOffLogLine [lineT1] ∧
    ((trackScan cfgSample ⟨100, 70000000000000⟩ 28 [lineT1]).1 = true ∧
      (trackScan cfgSample ⟨100, 70000000000000⟩ 28 [lineT1]).2.lastMonitorMissingTime =
        scanLatest cfgSample.monitorIsOffLogLine [lineT1]) :=
  ⟨by decide, by decide,
    (rotation_refires_and_size_updates cfgSample ⟨100, 70000000000000⟩ 28 [lineT1]).2
      (by decide) (by decide)⟩

/-- A matching line whose timestamp (year 0000) parses to a key before
the Go zero time instant. -/
def lineY0 : List Char := "[0000-01-01 00:00:00.000] dd".toList

/-- Counterexample to C2 as stated: the log rotated (size 10 < 100), a
matching line parses successfully — so a maximal parsed trigger
timestamp exists — yet the scan reports `false`, because that timestamp
(year 0000, key `-32140800000`) is not after the zero-time sentinel. -/
theorem rotation_refires_cex :
    (10 : Int) < 100 ∧
    specLatestOccurrence trigDD [lineY0] = some (timeKey 0 1 1 0 0 0 0) ∧
    timeKey 0 1 1 0 0 0 0 < 0 ∧
    (trackScan cfgSample ⟨100, 5⟩ 10 [lineY0]).1 = false :=
  ⟨by decide, by decide, by decide, by decide⟩

/-! ## C3: the dedup comparison on a scan with a positive maximum -/

/-- C3 (corrected).  On a scan without rotation whose maximal matching
parsed timestamp is strictly after the Go zero time (key `> 0`): the
tracker reports "new trigger" iff `lastHandledTimestamp` is absent or
the maximum is strictly later; firing records the maximum; an exactly
equal timestamp reports "already handled" and leaves
`lastHandledTimestamp` unchanged.  (As stated the claim also covered
maxima at or before the zero instant, where the code reports "no
trigger" even though a matching line parsed — see the counterexample.) -/
theorem compare_decision (cfg : Config) (st : TrackingState) (size : Int)
    (lines : List (List Char))
    (hnorot : st.lastLogSize ≤ size)
    (hv : 0 < scanLatest cfg.monitorIsOffLogLine lines) :
    ((trackScan cfg st size lines).1 = true ↔
      (st.lastMonitorMissingTime = 0 ∨
        st.lastMonitorMissingTime < scanLatest cfg.monitorIsOffLogLine lines)) ∧
    ((trackScan cfg st size lines).1 = true →
      (trackScan cfg st size lines).2.lastMonitorMissingTime =
        scanLatest cfg.monitorIsOffLogLine lines) ∧
    (scanLatest cfg.monitorIsOffLogLine lines = st.lastMonitorMissingTime →
      (trackScan cfg st size lines).1 = false ∧
      (trackScan cfg st size lines).2.lastMonitorMissingTime =
        st.lastMonitorMissingTime) := by
  have hA := afterSizeCheck_last_of_le st size hnorot
  refine ⟨?_, fun h => trackScan_true_last _ _ _ _ h, fun heq => ?_⟩
  · rw [trackScan_fst_iff, hA]
    constructor
    · rintro ⟨_, hc⟩; exact hc
    · intro hc; exact ⟨by omega, hc⟩
  · have h1 : scanLatest cfg.monitorIsOffLogLine lines ≠ 0 := by omega
    have h2 : ¬((afterSizeCheck st size).lastMonitorMissingTime = 0 ∨
        (afterSizeCheck st size).lastMonitorMissingTime <
          scanLatest cfg.monitorIsOffLogLine lines) := by
      rw [hA]; omega
    have halready := compareStep_already (afterSizeCheck st size) _ h1 h2
    have htr : trackScan cfg st size lines =
        compareStep (afterSizeCheck st size) (scanLatest cfg.monitorIsOffLogLine lines) := rfl
    rw [htr, halready]
    exact ⟨rfl, hA⟩

/-- Witness for C3 at a fresh state and a scan with one good line: the
iff holds, firing records the maximum. -/
theorem compare_decision_witness :
    (0 : Int) ≤ 28 ∧
    0 < scanLatest cfgSample.monitorIsOffLogLine [lineT1] ∧
    (((trackScan cfgSample ⟨0, 0⟩ 28 [lineT1]).1 = true ↔
      ((0 : Int) = 0 ∨ (0 : Int) < scanLatest cfgSample.monitorIsOffLogLine [lineT1])) ∧
      ((trackScan cfgSample ⟨0, 0⟩ 28 [lineT1]).1 = true →
        (trackScan cfgSample ⟨0, 0⟩ 28 [lineT1]).2.lastMonitorMissingTime =
          scanLatest cfgSample.monitorIsOffLogLine [lineT1]) ∧
      (scanLatest cfgSample.monitorIsOffLogLine [lineT1] = (0 : Int) →
        (trackScan cfgSample ⟨0, 0⟩ 28 [lineT1]).1 = false ∧
        (trackScan cfgSample ⟨0, 0⟩ 28 [lineT1]).2.lastMonitorMissingTime = (0 : Int))) :=
  ⟨by decide, by decide, compare_decision cfgSample ⟨0, 0⟩ 28 [lineT1] (by decide) (by decide)⟩

/-- A matching line whose timestamp is exactly the Go zero time
instant (year 1, January 1, 00:00:00.000). -/
def lineEpoch : List Char := "[0001-01-01 00:00:00.000] dd".toList

/-- Counterexample to C3 as stated: a matching line parses successfully
(`latestOccurrence` is present, equal to the zero-time key `0`) and
`lastHandledTimestamp` is absent, so the claim demands "new trigger
detected"; the code reports `false` because the parsed timestamp
coincides with the zero-time sentinel. -/
theorem compare_decision_cex :
    specLatestOccurrence trigDD [lineEpoch] = some 0 ∧
    (trackScan cfgSample ⟨0, 0⟩ 28 [lineEpoch]).1 = false :=
  ⟨by decide, by decide⟩

/-! ## C4: the scanned maximum versus the per-line contributions -/

/-- C4 (corrected).  `latestOccurrence` equals the fold of `max` over
the successfully parsed timestamps of the lines containing the trigger
substring, *started from the zero-time sentinel `0`* (Go initializes
`var latestOccurrence time.Time`): non-matching lines and unparsable
matching lines contribute nothing, and no line aborts the scan — but
parsed timestamps at or before the zero instant are absorbed by the
sentinel rather than reported (see the counterexample). -/
theorem scanLatest_eq_max_parsed (trigger : List Char) (lines : List (List Char)) :
    scanLatest trigger lines = (parsedMatching trigger lines).foldl max 0 :=
  foldl_scanStep trigger lines 0

/-- A matching line whose timestamp (the millisecond before the zero
instant) parses to key `-1`. -/
def lineY0b : List Char := "[0000-12-31 23:59:59.999] dd".toList

/-- Counterexample to C4 as stated: the only matching line parses to
key `-1`, so the maximum over all matching parsed lines is `-1`, but
the code's `latestOccurrence` stays at the zero value `0`. -/
theorem scanLatest_eq_max_parsed_cex :
    specLatestOccurrence trigDD [lineY0b] = some (-1) ∧
    scanLatest trigDD [lineY0b] = 0 :=
  ⟨by decide, by decide⟩

/-! ## C5: a scan with no parsed matching line resets the tracker -/

/-- C5 (confirmed).  When no line both contains the trigger substring
and parses successfully, the tracker resets `lastHandledTimestamp` to
absent and reports no trigger (`false`), with `lastFileSize` set to the
observed size. -/
theorem no_trigger_resets (cfg : Config) (st : TrackingState) (size : Int)
    (lines : List (List Char))
    (h : ∀ line ∈ lines, matchParse cfg.monitorIsOffLogLine line = none) :
    trackScan cfg st size lines = (false, ⟨size, 0⟩) := by
  have hm : parsedMatching cfg.monitorIsOffLogLine lines = [] :=
    List.filterMap_eq_nil_iff.2 h
  have hv : scanLatest cfg.monitorIsOffLogLine lines = 0 := by
    have := foldl_scanStep cfg.monitorIsOffLogLine lines 0
    rw [hm] at this
    exact this
  have htr : trackScan cfg st size lines =
      compareStep (afterSizeCheck st size) (scanLatest cfg.monitorIsOffLogLine lines) := rfl
  rw [htr, hv]
  unfold compareStep
  rw [if_pos rfl]
  have hres : resetMonitorTracking (afterSizeCheck st size) = ⟨size, 0⟩ := by
    unfold resetMonitorTracking afterSizeCheck
    split_ifs <;> rfl
  rw [hres]

/-- Witness for C5: a log with one non-matching line resets the state
and reports no trigger. -/
theorem no_trigger_resets_witness :
    matchParse cfgSample.monitorIsOffLogLine ("hello".toList) = none ∧
    trackScan cfgSample ⟨3, 7⟩ 5 [("hello".toList)] = (false, ⟨5, 0⟩) :=
  ⟨by decide, no_trigger_resets cfgSample ⟨3, 7⟩ 5 [("hello".toList)] (by decide)⟩

/-! ## C10: an empty trigger substring makes every line a candidate -/

theorem scanLatest_empty_trigger (lines : List (List Char)) :
    scanLatest [] lines = scanLatestAllLines lines := by
  suffices h : ∀ (l : List (List Char)) (a : Int),
      l.foldl (scanStep []) a = l.foldl (fun acc line =>
        match parseSunshineTimestamp line with
        | .ok entryTime => if acc < entryTime then entryTime else acc
        | .error _ => acc) a from h lines 0
  intro l
  induction l with
  | nil => intro a; rfl
  | cons x xs ih =>
    intro a
    simp only [List.foldl_cons]
    have hstep : scanStep [] a x =
        (match parseSunshineTimestamp x with
        | .ok entryTime => if a < entryTime then entryTime else a
        | .error _ => a) := by
      unfold scanStep
      rw [hasSub_nil]
      simp
    rw [hstep]
    exact ih _

/-- C10 (confirmed).  With an empty trigger substring every line is a
matching candidate (`strings.Contains(line, "")` is always true), so
the tracker's decision is exactly the rotation-adjusted comparison of
the maximal successfully parsed timestamp over *all* lines of the file
against `lastHandledTimestamp`. -/
theorem empty_trigger_scan (cfg : Config) (st : TrackingState) (size : Int)
    (lines : List (List Char)) (h : cfg.monitorIsOffLogLine = []) :
    trackScan cfg st size lines =
      compareStep (afterSizeCheck st size) (scanLatestAllLines lines) := by
  have htr : trackScan cfg st size lines =
      compareStep (afterSizeCheck st size) (scanLatest cfg.monitorIsOffLogLine lines) := rfl
  rw [htr, h, scanLatest_empty_trigger]

/-- A sample configuration whose trigger substring is empty. -/
def cfgEmptyTrig : Config := ⟨0, [], [], 0, [], [], [], false⟩

/-- Witness for C10 at a concrete log. -/
theorem empty_trigger_scan_witness :
    cfgEmptyTrig.monitorIsOffLogLine = [] ∧
    trackScan cfgEmptyTrig ⟨0, 0⟩ 28 [lineT1] =
      compareStep (afterSizeCheck ⟨0, 0⟩ 28) (scanLatestAllLines [lineT1]) :=
  ⟨rfl, empty_trigger_scan cfgEmptyTrig ⟨0, 0⟩ 28 [lineT1] rfl⟩

/-! ## C6: the parser's failure conditions and error values -/

theorem breakAtClose_eq_none (l : List Char) : breakAtClose l = none ↔ ']' ∉ l := by
  induction l with
  | nil => simp [breakAtClose]
  | cons ch rest ih =>
    by_cases h : ch = ']'
    · subst h; simp [breakAtClose]
    · simp [breakAtClose, h, Option.map_eq_none', ih, List.mem_cons, Ne.symm h]

theorem breakAtClose_eq_some (l b a : List Char) :
    breakAtClose l = some (b, a) ↔ l = b ++ ']' :: a ∧ ']' ∉ b := by
  induction l generalizing b a with
  | nil =>
    constructor
    · intro h; exact absurd h (by simp [breakAtClose])
    · rintro ⟨h, _⟩; exact absurd h (by simp)
  | cons ch rest ih =>
    by_cases h : ch = ']'
    · subst h
      simp only [breakAtClose, if_pos rfl]
      constructor
      · intro hs
        obtain ⟨hb, ha⟩ := Prod.mk.injEq .. ▸ Option.some.inj hs
        subst hb; subst ha
        exact ⟨rfl, by simp⟩
      · rintro ⟨heq, hnb⟩
        cases b with
        | nil =>
          simp only [List.nil_append, List.cons.injEq] at heq
          rw [heq.2]
          simp
        | cons c bs =>
          simp only [List.cons_append, List.cons.injEq] at heq
          exact absurd (heq.1 ▸ List.mem_cons_self c bs) hnb
    · simp only [breakAtClose, if_neg h]
      constructor
      · intro hs
        rw [Option.map_eq_some'] at hs
        obtain ⟨⟨b', a'⟩, hba, heq⟩ := hs
        simp only [Prod.mk.injEq] at heq
        obtain ⟨hb, ha⟩ := heq
        subst ha
        obtain ⟨hl, hnb⟩ := (ih b' a').1 hba
        refine ⟨?_, ?_⟩
        · rw [← hb, hl]; rfl
        · rw [← hb]
          simp [List.mem_cons, hnb, Ne.symm h]
      · rintro ⟨heq, hnb⟩
        cases b with
        | nil =>
          simp only [List.nil_append, List.cons.injEq] at heq
          exact absurd heq.1 h
        | cons c bs =>
          simp only [List.cons_append, List.cons.injEq] at heq
          obtain ⟨hc, hrest⟩ := heq
          have hnbs : ']' ∉ bs := fun hm => hnb (List.mem_cons_of_mem _ hm)
          rw [Option.map_eq_some']
          exact ⟨(bs, a), (ih bs a).2 ⟨hrest, hnbs⟩, by rw [hc]⟩

theorem parseSunshineTimestamp_bracket (rest : List Char) :
    parseSunshineTimestamp ('[' :: rest) =
      match breakAtClose rest with
      | some ba =>
        match parseTimePortion ba.1 with
        | some t => .ok t
        | none => .error .badTimeFormat
      | none => .error .missingBrackets := rfl

theorem parse_head_not_bracket (line : List Char) (h : line.head? ≠ some '[') :
    parseSunshineTimestamp line = .error .missingBrackets := by
  cases line with
  | nil => rfl
  | cons ch rest =>
    have hne : ch ≠ '[' := by simpa using h
    unfold parseSunshineTimestamp
    split <;> simp_all

theorem parse_missing (line : List Char)
    (h : line.head? ≠ some '[' ∨ ']' ∉ line) :
    parseSunshineTimestamp line = .error .missingBrackets := by
  rcases h with h | h
  · exact parse_head_not_bracket line h
  · cases line with
    | nil => rfl
    | cons ch rest =>
      by_cases hb : ch = '['
      · subst hb
        have hnr : ']' ∉ rest := fun hm => h (List.mem_cons_of_mem _ hm)
        rw [parseSunshineTimestamp_bracket, (breakAtClose_eq_none rest).2 hnr]
      · exact parse_head_not_bracket _ (by simp [hb])

theorem parse_badformat (line mid post : List Char)
    (hline : line = '[' :: (mid ++ ']' :: post)) (hmem : ']' ∉ mid)
    (hp : parseTimePortion mid = none) :
    parseSunshineTimestamp line = .error .badTimeFormat := by
  subst hline
  have hb : breakAtClose (mid ++ ']' :: post) = some (mid, post) :=
    (breakAtClose_eq_some _ _ _).2 ⟨rfl, hmem⟩
  unfold parseSunshineTimestamp
  simp only [hb, hp]

theorem parse_ok_iff (line : List Char) :
    (∃ t, parseSunshineTimestamp line = .ok t) ↔
      ∃ mid post, line = '[' :: (mid ++ ']' :: post) ∧ ']' ∉ mid ∧
        (parseTimePortion mid).isSome = true := by
  constructor
  · rintro ⟨t, ht⟩
    cases line with
    | nil => exact absurd ht (by simp [parseSunshineTimestamp])
    | cons ch rest =>
      by_cases hb : ch = '['
      · subst hb
        cases hbr : breakAtClose rest with
        | none =>
          rw [parse_missing _ (Or.inr ?_)] at ht
          · exact absurd ht (by simp)
          · intro hm
            rcases List.mem_cons.1 hm with h1 | h1
            · exact absurd h1.symm (by decide)
            · exact absurd ((breakAtClose_eq_none rest).1 hbr) (fun hn => hn h1)
        | some ba =>
          obtain ⟨b, a⟩ := ba
          obtain ⟨hrest, hnb⟩ := (breakAtClose_eq_some rest b a).1 hbr
          cases hpt : parseTimePortion b with
          | none =>
            rw [parse_badformat _ b a (by rw [hrest]) hnb hpt] at ht
            exact absurd ht (by simp)
          | some t' =>
            exact ⟨b, a, by rw [hrest], hnb, by rw [hpt]; rfl⟩
      · rw [parse_head_not_bracket _ (by simp [hb])] at ht
        exact absurd ht (by simp)
  · rintro ⟨mid, post, hline, hnm, hps⟩
    subst hline
    have hb : breakAtClose (mid ++ ']' :: post) = some (mid, post) :=
      (breakAtClose_eq_some _ _ _).2 ⟨rfl, hnm⟩
    obtain ⟨t, ht⟩ := Option.isSome_iff_exists.1 hps
    refine ⟨t, ?_⟩
    unfold parseSunshineTimestamp
    simp only [hb, ht]

/-- C6 (corrected).  The parser fails — always returning an error value,
never a fatal condition — exactly when the line does not start with `[`,
or contains no `]`, or the bracketed portion (the text between the
leading `[` and the first `]`) is rejected by Go's parse of the layout
`2006-01-02 15:04:05.000` (`parseTimePortion`).  Two amendments to the
claim as stated: (1) that acceptance is laxer than the literal fixed
pattern `YYYY-MM-DD HH:MM:SS.mmm` — the hour may be one digit, the
fractional separator may be `,`, and the fraction accepts a leading
`+` (see the counterexample's `9:00` line); (2) the first two
conditions are reported with one and the same `missingBrackets` error
and only the format rejection gets a distinct error — two distinct
error values, not three (see the counterexample). -/
theorem parse_failure_conditions (line : List Char) :
    ((∃ t, parseSunshineTimestamp line = .ok t) ↔
      ∃ mid post, line = '[' :: (mid ++ ']' :: post) ∧ ']' ∉ mid ∧
        (parseTimePortion mid).isSome = true) ∧
    ((line.head? ≠ some '[' ∨ ']' ∉ line) →
      parseSunshineTimestamp line = .error .missingBrackets) ∧
    (∀ mid post, line = '[' :: (mid ++ ']' :: post) → ']' ∉ mid →
      parseTimePortion mid = none →
      parseSunshineTimestamp line = .error .badTimeFormat) :=
  ⟨parse_ok_iff line, parse_missing line,
    fun mid post h1 h2 h3 => parse_badformat line mid post h1 h2 h3⟩

/-- Witness for C6: a line without a leading bracket gets the
missing-brackets error. -/
theorem parse_failure_conditions_witness :
    (("x] dd".toList).head? ≠ some '[' ∨ ']' ∉ "x] dd".toList) ∧
    parseSunshineTimestamp ("x] dd".toList) = .error .missingBrackets :=
  ⟨Or.inl (by decide), (parse_failure_conditions _).2.1 (Or.inl (by decide))⟩

/-- Counterexample to C6 as stated, in both respects.  Distinctness:
one line fails only the starts-with-`[` condition (it does contain
`]`), another fails only the has-a-`]` condition (it does start with
`[`), yet both produce the very same error value — the three failure
conditions do not map to three distinct errors.  Failure condition:
a bracketed portion with a single-digit hour does *not* match the
fixed pattern `YYYY-MM-DD HH:MM:SS.mmm`, yet Go's parser accepts it
(`getnum(value, false)` for the `15` layout token), so "fails exactly
when the substring does not match the fixed pattern" is also false. -/
theorem parse_distinct_errors_cex :
    (("ab] x".toList).head? ≠ some '[' ∧ ']' ∈ "ab] x".toList) ∧
    (("[ab x".toList).head? = some '[' ∧ ']' ∉ "[ab x".toList) ∧
    parseSunshineTimestamp ("ab] x".toList) = parseSunshineTimestamp ("[ab x".toList) ∧
    parseSunshineTimestamp ("ab] x".toList) = .error .missingBrackets ∧
    parseSunshineTimestamp ("[2024-01-01 9:00:00.000] dd".toList) =
      .ok (timeKey 2024 1 1 9 0 0 0) :=
  ⟨⟨by decide, by decide⟩, ⟨by decide, by decide⟩, by decide, by decide, by decide⟩

/-! ## C7: what the tracker state looks like after a failed read -/

/-- C7 (corrected).  Only a `Stat` failure leaves the tracker state
untouched.  When `Open` or the line scan fails, the rotation check and
the unconditional `lastFileSize` update have already run before the
error return: `lastFileSize` becomes the newly observed size, and on a
size decrease `lastHandledTimestamp` has already been reset.  (In the
full program every tracker error is fatal — `log.Fatal` in `main` — so
no altered state is ever observed by a later tick.) -/
theorem error_paths_state (cfg : Config) (st : TrackingState) :
    ((isMonitorMissing cfg st .statErr).1 = .error () ∧
      (isMonitorMissing cfg st .statErr).2 = st) ∧
    (∀ size, (isMonitorMissing cfg st (.openErr size)).1 = .error () ∧
      (isMonitorMissing cfg st (.openErr size)).2.lastLogSize = size ∧
      (st.lastLogSize ≤ size →
        (isMonitorMissing cfg st (.openErr size)).2.lastMonitorMissingTime =
          st.lastMonitorMissingTime) ∧
      (size < st.lastLogSize →
        (isMonitorMissing cfg st (.openErr size)).2.lastMonitorMissingTime = 0)) ∧
    (∀ size lines, isMonitorMissing cfg st (.scanErr size lines) =
      (.error (), afterSizeCheck st size)) := by
  refine ⟨⟨rfl, rfl⟩, fun size => ⟨rfl, afterSizeCheck_size st size, ?_, ?_⟩,
    fun _ _ => rfl⟩
  · exact afterSizeCheck_last_of_le st size
  · exact afterSizeCheck_last_of_lt st size

/-- Witness for C7: a rotation-sized `Open` failure resets the handled
timestamp. -/
theorem error_paths_state_witness :
    (3 : Int) < 10 ∧
    (isMonitorMissing cfgSample ⟨10, 5⟩ (.openErr 3)).2.lastMonitorMissingTime = 0 :=
  ⟨by decide, ((error_paths_state cfgSample ⟨10, 5⟩).2.1 3).2.2.2 (by decide)⟩

/-- Counterexample to C7 as stated: a tick whose `os.Open` fails (after
a successful `os.Stat` that observed a shrunken size) returns an error
*and* leaves the tracker state changed — `lastFileSize` updated from
`10` to `3` and `lastHandledTimestamp` reset from `5` to absent. -/
theorem error_alters_state_cex :
    isMonitorMissing cfgSample ⟨10, 5⟩ (.openErr 3) = (.error (), ⟨3, 0⟩) ∧
    ((⟨3, 0⟩ : TrackingState) ≠ ⟨10, 5⟩) :=
  ⟨by decide, by decide⟩

/-! ## C9: command strings always split into a non-empty list -/

/-- C9 (confirmed).  `strings.Split(s, " ")` never yields an empty
list — even for the empty string or a string without spaces — so
`wakeMonitor`, `stopSunshine` and `startSunshine` always read element
`0` of the split safely. -/
theorem command_always_has_program :
    (∀ s : List Char, commandAndArgs s ≠ []) ∧
    ∀ cfg : Config, (wakeMonitor cfg).isSome = true ∧
      (stopSunshine cfg).isSome = true ∧ (startSunshine cfg).isSome = true := by
  have hne : ∀ s : List Char, commandAndArgs s ≠ [] := by
    intro s
    unfold commandAndArgs List.splitOn
    exact List.splitOnP_ne_nil _ s
  refine ⟨hne, fun cfg => ⟨?_, ?_, ?_⟩⟩
  · cases h : commandAndArgs cfg.wakeMonitorCommand with
    | nil => exact absurd h (hne _)
    | cons p args => unfold wakeMonitor; rw [h]; rfl
  · cases h : commandAndArgs cfg.stopSunshineCommand with
    | nil => exact absurd h (hne _)
    | cons p args => unfold stopSunshine; rw [h]; rfl
  · cases h : commandAndArgs cfg.startSunshineCommand with
    | nil => exact absurd h (hne _)
    | cons p args => unfold startSunshine; rw [h]; rfl
